import Mathlib

set_option maxRecDepth 4000

/-!
Verification development for the skip2/nes emulator core.

The definitions below are shallow embeddings of the Go source:
  * `CPU` and its operations come from src/nes/mapper0.go (the CPU core file),
  * `PPUTiming` and `PPUSprite` from src/nes/ppu.go,
  * `Mapper4IRQ` from the MMC3 part of src/nes/mapper0.go,
  * `Mapper1` from src/nes/mapper1.go,
  * `Joypad` from the joypad source file.
Machine integers (byte, uint16) are modelled as `Nat` with explicit masking
or `% 2^w` exactly where the Go code can overflow; fixed arrays become
`Nat → Nat` maps; pointers to peer components (Console, PPU, joypads,
cartridge) are modelled as explicit state fields or abstract functions,
as documented at each definition.
-/

/-! ### Generic bit-level helper lemmas -/

/-- Distributing a constant mask over a bitwise or. -/
theorem nat_or_and_mask (x y m : Nat) : (x ||| y) &&& m = (x &&& m) ||| (y &&& m) := by
  apply Nat.eq_of_testBit_eq
  intro i
  simp only [Nat.testBit_land, Nat.testBit_lor]
  cases x.testBit i <;> cases y.testBit i <;> cases m.testBit i <;> rfl

/-- A value below 2^8 or-ed with a value shifted left by 8 is their sum
(the two summands occupy disjoint bit ranges). -/
theorem nat_lor_shiftLeft8 (a b : Nat) (ha : a < 256) :
    a ||| (b <<< 8) = a + 256 * b := by
  apply Nat.eq_of_testBit_eq
  intro i
  rcases Nat.lt_or_ge i 8 with hi | hi
  · have h8 : ¬ i ≥ 8 := by omega
    have hadd : (a + 256 * b).testBit i = a.testBit i := by
      have h1 : (a + 256 * b) % 2 ^ 8 = a := by
        have : 256 * b % 256 = 0 := by omega
        have h256 : (2 : Nat) ^ 8 = 256 := by norm_num
        rw [h256]
        omega
      have := Nat.testBit_mod_two_pow (a + 256 * b) 8 i
      rw [h1] at this
      simp only [hi, decide_True, Bool.true_and] at this
      exact this.symm
    rw [hadd, Nat.testBit_lor, Nat.testBit_shiftLeft]
    simp [h8]
  · have ha' : a.testBit i = false := by
      apply Nat.testBit_lt_two_pow
      calc a < 256 := ha
        _ = 2 ^ 8 := by norm_num
        _ ≤ 2 ^ i := Nat.pow_le_pow_right (by norm_num) hi
    have hdiv : (a + 256 * b) / 2 ^ i = b / 2 ^ (i - 8) := by
      have h256 : (256 : Nat) = 2 ^ 8 := by norm_num
      have hsplit : (2 : Nat) ^ i = 2 ^ 8 * 2 ^ (i - 8) := by
        rw [← pow_add]
        congr 1
        omega
      rw [hsplit, ← Nat.div_div_eq_div_mul]
      have : (a + 256 * b) / 2 ^ 8 = b := by
        rw [← h256]
        omega
      rw [this]
    rw [Nat.testBit_lor, Nat.testBit_shiftLeft, ha']
    have hge : i ≥ 8 := hi
    simp only [hge, decide_True, Bool.true_and, Bool.false_or]
    rw [Nat.testBit, Nat.testBit, Nat.shiftRight_eq_div_pow, Nat.shiftRight_eq_div_pow, hdiv]

/-! ### CPU core (src/nes/mapper0.go)

The `CPU` structure carries the registers, flags and work RAM of the Go
`CPU` struct.  The Go struct also holds a `Console` back-reference through
which the bus reaches the PPU registers, the joypads and the cartridge;
those peer devices are outside this state and are abstracted by the pure
map `extRead` (the byte such a read returns) and by the boolean `cartIRQ`
(the value `Console.Cart.IRQ()` would return).  Reads of peer devices can
have side effects on those devices, but never on the CPU fields modelled
here; writes to peer devices likewise leave every CPU field unchanged. -/

structure CPU where
  RAM : Nat → Nat
  extRead : Nat → Nat
  cartIRQ : Bool
  NumCycles : Nat
  PC : Nat
  SP : Nat
  A : Nat
  X : Nat
  Y : Nat
  flagCarry : Bool
  flagZero : Bool
  flagInterruptDisable : Bool
  flagDecimalMode : Bool
  flagBreak : Bool
  flagOverflow : Bool
  flagSign : Bool

/-- Interrupt vectors and stack base address. -/
def StackBase : Nat := 0x100

/-- IRQ/BRK vector address. -/
def InterruptVector : Nat := 0xFFFE

/-- CPU.read: the CPU-side memory bus.  Addresses below $2000 hit the 2 KiB
work RAM mirrored through `address & 0x7FF`; $2000–$3FFF dispatches on
`address & 7` to the PPU registers (read cases 2, 4 and 7; the remaining
slots log and return the zero value); $4016/$4017 read the joypads;
$6000–$FFFF reads the cartridge; everything else returns $FF. -/
def CPU.read (c : CPU) (address : Nat) : Nat :=
  if address < 0x2000 then
    c.RAM (address &&& 0x7FF)
  else if address < 0x4000 then
    if address &&& 0x7 = 2 ∨ address &&& 0x7 = 4 ∨ address &&& 0x7 = 7 then
      c.extRead address
    else
      0
  else if address = 0x4016 ∨ address = 0x4017 then
    c.extRead address
  else if 0x6000 ≤ address ∧ address ≤ 0xFFFF then
    c.extRead address
  else
    0xFF

/-- CPU.write restricted to the fields modelled in `CPU`: a write below
$2000 updates the mirrored work RAM; every other destination (PPU
registers, joypads, OAM DMA, cartridge) lives outside this state, so the
CPU fields are unchanged.  The returned number is the extra cycle count
(512 for an OAM DMA at $4014, 0 otherwise), as in the Go code. -/
def CPU.write (c : CPU) (address value : Nat) : CPU × Nat :=
  if address < 0x2000 then
    ({ c with RAM := fun a => if a = (address &&& 0x7FF) then value else c.RAM a }, 0)
  else if address = 0x4014 then
    (c, 512)
  else
    (c, 0)

/-- CPU.push8: write the byte at StackBase+SP, then decrement SP (byte
wrap-around, hence the `% 256`). -/
def CPU.push8 (c : CPU) (value : Nat) : CPU :=
  let w := (CPU.write c (StackBase + c.SP) value).1
  { w with SP := (w.SP + 255) % 256 }

/-- CPU.pop8: read the byte at StackBase+SP+1, then increment SP.  The Go
code computes the read address as `StackBase + uint16(c.SP) + 1` in 16-bit
arithmetic, so for SP = $FF the read address is $200, not $100. -/
def CPU.pop8 (c : CPU) : Nat × CPU :=
  (CPU.read c (StackBase + c.SP + 1), { c with SP := (c.SP + 1) % 256 })

/-- CPU.push16: low byte at StackBase+SP-1, high byte at StackBase+SP,
then SP -= 2 (byte wrap-around). -/
def CPU.push16 (c : CPU) (value : Nat) : CPU :=
  let w1 := (CPU.write c (StackBase + c.SP - 1) (value &&& 0xFF)).1
  let w2 := (CPU.write w1 (StackBase + w1.SP) (value >>> 8)).1
  { w2 with SP := (w2.SP + 254) % 256 }

/-- statusByte: the P status byte assembled from the seven flags, with bit
5 always set (the body of the Go method CPU.P). -/
def statusByte (c z i d b v n : Bool) : Nat :=
  (((((((if c then 1 else 0) |||
    (if z then 2 else 0)) |||
    (if i then 4 else 0)) |||
    (if d then 8 else 0)) |||
    (if b then 0x10 else 0)) ||| 0x20) |||
    (if v then 0x40 else 0)) |||
    (if n then 0x80 else 0)

/-- CPU.P: the packed status byte of a CPU state. -/
def CPU.P (c : CPU) : Nat :=
  statusByte c.flagCarry c.flagZero c.flagInterruptDisable c.flagDecimalMode
    c.flagBreak c.flagOverflow c.flagSign

/-- CPU.php: push P with bit 4 ($10) forced on. -/
def CPU.php (c : CPU) : CPU :=
  CPU.push8 c (CPU.P c ||| 0x10)

/-- CPU.plp: pop a byte, mask off bit 4 ($10), and unpack the seven flags
from it. -/
def CPU.plp (c : CPU) : CPU :=
  let r := CPU.pop8 c
  let p := r.1 &&& 0xEF
  { r.2 with
    flagCarry := decide (p &&& 0x01 ≠ 0)
    flagZero := decide (p &&& 0x02 ≠ 0)
    flagInterruptDisable := decide (p &&& 0x04 ≠ 0)
    flagDecimalMode := decide (p &&& 0x08 ≠ 0)
    flagBreak := decide (p &&& 0x10 ≠ 0)
    flagOverflow := decide (p &&& 0x40 ≠ 0)
    flagSign := decide (p &&& 0x80 ≠ 0) }

/-- signBitSet from the Go source. -/
def signBitSet (value : Nat) : Bool :=
  decide (value &&& 0x80 ≠ 0)

/-- CPU.adc: add memory at `address` plus carry into A.  The Go byte
addition `c.A + value + carry` wraps, hence the `% 256`; the carry test is
done in full-width integers. -/
def CPU.adc (c : CPU) (address : Nat) : CPU :=
  let value := CPU.read c address
  let carry := if c.flagCarry then 1 else 0
  let newA := (c.A + value + carry) % 256
  let aSign := signBitSet c.A
  let valueSign := signBitSet value
  let resultSign := signBitSet newA
  { c with
    A := newA
    flagCarry := decide (c.A + value + carry > 0xFF)
    flagZero := decide (newA = 0)
    flagSign := decide (newA &&& 0x80 = 0x80)
    flagOverflow := (aSign && valueSign && !resultSign) ||
      (!aSign && !valueSign && resultSign) }

/-- CPU.sbc: subtract memory at `address` and the borrow from A.  The Go
carry test `(int(c.A) - int(value) - int(carry)) >= 0` is the Nat
comparison `value + carry ≤ c.A`; the Go byte subtraction
`c.A - byte(value) - carry` wraps, which for byte-sized inputs equals
`(c.A + 512 - (value + carry)) % 256`.  Note the source negates the sign
of the operand when computing overflow. -/
def CPU.sbc (c : CPU) (address : Nat) : CPU :=
  let value := CPU.read c address
  let carry := if !c.flagCarry then 1 else 0
  let newA := (c.A + 512 - (value + carry)) % 256
  let aSign := signBitSet c.A
  let valueSign := !signBitSet value
  let resultSign := signBitSet newA
  { c with
    A := newA
    flagCarry := decide (value + carry ≤ c.A)
    flagZero := decide (newA = 0)
    flagSign := decide (newA &&& 0x80 = 0x80)
    flagOverflow := (aSign && valueSign && !resultSign) ||
      (!aSign && !valueSign && resultSign) }

/-- CPU.read16: little-endian 16-bit read; the high-byte address
`address + 1` is computed in 16-bit arithmetic, hence `% 65536`. -/
def CPU.read16 (c : CPU) (address : Nat) : Nat :=
  CPU.read c address ||| (CPU.read c ((address + 1) % 65536)) <<< 8

/-- CPU.read16WithPageBoundaryBug: as read16, except that when the low
byte of the pointer is $FF the high byte is fetched from the start of the
same page (`address & 0xFF00`) instead of from `address + 1`. -/
def CPU.read16WithPageBoundaryBug (c : CPU) (address : Nat) : Nat :=
  let low := address
  let high := if address &&& 0xFF = 0xFF then address &&& 0xFF00 else (address + 1) % 65536
  CPU.read c low ||| (CPU.read c high) <<< 8

/-- CPU.pagesEqual from the Go source. -/
def CPU.pagesEqual (p1 p2 : Nat) : Bool :=
  decide (p1 &&& 0xFF00 = p2 &&& 0xFF00)

/-- CPU.getAddrIndirect, the addressing mode of JMP ($6C). -/
def CPU.getAddrIndirect (c : CPU) : Nat × Bool :=
  (CPU.read16WithPageBoundaryBug c (CPU.read16 c ((c.PC + 1) % 65536)), false)

/-- CPU.getAddrIndirectX; the zero-page pointer `c.read(c.PC+1) + c.X` is
a byte addition, hence `% 256`. -/
def CPU.getAddrIndirectX (c : CPU) : Nat × Bool :=
  let ptr := (CPU.read c ((c.PC + 1) % 65536) + c.X) % 256
  (CPU.read16WithPageBoundaryBug c ptr, false)

/-- CPU.getAddrIndirectY; the final 16-bit addition of Y wraps. -/
def CPU.getAddrIndirectY (c : CPU) : Nat × Bool :=
  let ptr := CPU.read c ((c.PC + 1) % 65536)
  let address := CPU.read16WithPageBoundaryBug c ptr
  let finalAddress := (address + c.Y) % 65536
  (finalAddress, !CPU.pagesEqual address finalAddress)

/-- The Size column of the 256-entry opcode table built in
CPU.loadInstructions, row by row.  Invalid opcodes have size 0. -/
def instructionSizes : List Nat :=
  [1, 2, 0, 2, 2, 2, 2, 2, 1, 2, 1, 2, 3, 3, 3, 3,
   2, 2, 0, 2, 2, 2, 2, 2, 1, 3, 1, 3, 3, 3, 3, 3,
   3, 2, 0, 2, 2, 2, 2, 2, 1, 2, 1, 2, 3, 3, 3, 3,
   2, 2, 0, 2, 2, 2, 2, 2, 1, 3, 1, 3, 3, 3, 3, 3,
   1, 2, 0, 2, 2, 2, 2, 2, 1, 2, 1, 2, 3, 3, 3, 3,
   2, 2, 0, 2, 2, 2, 2, 2, 1, 3, 1, 3, 3, 3, 3, 3,
   1, 2, 0, 2, 2, 2, 2, 2, 1, 2, 1, 2, 3, 3, 3, 3,
   2, 2, 0, 2, 2, 2, 2, 2, 1, 3, 1, 3, 3, 3, 3, 3,
   2, 2, 2, 2, 2, 2, 2, 2, 1, 2, 1, 0, 3, 3, 3, 3,
   2, 2, 0, 0, 2, 2, 2, 2, 1, 3, 1, 0, 0, 3, 0, 0,
   2, 2, 2, 2, 2, 2, 2, 2, 1, 2, 1, 2, 3, 3, 3, 3,
   2, 2, 0, 2, 2, 2, 2, 2, 1, 3, 1, 0, 3, 3, 3, 3,
   2, 2, 2, 2, 2, 2, 2, 2, 1, 2, 1, 2, 3, 3, 3, 3,
   2, 2, 0, 2, 2, 2, 2, 2, 1, 3, 1, 3, 3, 3, 3, 3,
   2, 2, 2, 2, 2, 2, 2, 2, 1, 2, 1, 2, 3, 3, 3, 3,
   2, 2, 0, 2, 2, 2, 2, 2, 1, 3, 1, 3, 3, 3, 3, 3]

/-- Size of the table entry for an opcode. -/
def instructionSize (opcode : Nat) : Nat :=
  instructionSizes.getD opcode 0

/-- CPU.interrupt: push PC and P, load PC from the interrupt vector, set
the interrupt-disable flag; costs 7 cycles. -/
def CPU.interrupt (c : CPU) : CPU × Nat :=
  let c1 := CPU.push16 c c.PC
  let c2 := CPU.push8 c1 (CPU.P c1)
  ({ c2 with PC := CPU.read16 c2 InterruptVector, flagInterruptDisable := true }, 7)

/-- The errors CPU.Step can return. -/
inductive CPUErr where
  | invalidInstruction (opcode pc : Nat)
  | unimplementedInstruction (opcode : Nat)

/-- CPU.Step.  If the interrupt-disable flag is clear and the cartridge
asserts IRQ, service the interrupt first.  Then fetch the opcode at PC;
a table entry of size 0 aborts with an invalid-instruction error, leaving
the state as it was.  The valid-opcode continuation (addressing-mode
resolution, PC advance, the operation itself and cycle accounting, Go
source lines after the size check) is abstracted by the parameter `exec`;
the theorems below hold for every such continuation. -/
def CPU.Step (exec : Nat → CPU → CPU) (c : CPU) : Option CPUErr × CPU :=
  let c0 := if c.flagInterruptDisable = false ∧ c.cartIRQ = true then (CPU.interrupt c).1 else c
  let opcode := CPU.read c0 c0.PC
  if instructionSize opcode = 0 then
    (some (CPUErr.invalidInstruction opcode c0.PC), c0)
  else
    (none, exec opcode c0)

/-- A concrete power-on-like CPU state used by concrete instances below
(SP and the interrupt-disable flag as NewCPU sets them). -/
def cpu0 : CPU :=
  { RAM := fun _ => 0
    extRead := fun _ => 0
    cartIRQ := false
    NumCycles := 0
    PC := 0
    SP := 0xFD
    A := 0
    X := 0
    Y := 0
    flagCarry := false
    flagZero := false
    flagInterruptDisable := true
    flagDecimalMode := false
    flagBreak := false
    flagOverflow := false
    flagSign := false }

/-! ### PPU timing and scroll registers (src/nes/ppu.go)

`PPUTiming` carries the PPU fields that participate in the tick/scanline/
frame bookkeeping and in the loopy-register evolution performed by
PPU.Step: `Scanline`, `Tick`, `Frame`, the internal registers `v` and `t`,
and the two mask-register bits that gate rendering.  The remaining PPU
state (image buffer, VRAM, OAM, palettes, status flags, fine x, the w
toggle) is neither read nor written by the modelled updates of these
fields: drawPixel, loadTile, loadSprites, the VBlank/NMI block and the
mapper NextScanline call touch none of them, and incrementTick reads only
Scanline, Tick and Frame.  The mask bits are only changed by a $2001
register write, never by Step. -/

structure PPUTiming where
  Scanline : Nat
  Tick : Nat
  Frame : Nat
  v : Nat
  t : Nat
  flagShowBackground : Bool
  flagShowSprites : Bool

/-- PPU.incrementCoarseX from the source. -/
def PPUTiming.incrementCoarseX (p : PPUTiming) : PPUTiming :=
  if p.v &&& 0x001F = 31 then
    { p with v := (p.v &&& 0xFFE0) ^^^ 0x0400 }
  else
    { p with v := p.v + 1 }

/-- PPU.incrementY from the source (fine Y overflow into coarse Y with the
29 to 0 nametable toggle and the 31 to 0 wrap). -/
def PPUTiming.incrementY (p : PPUTiming) : PPUTiming :=
  if p.v &&& 0x7000 ≠ 0x7000 then
    { p with v := p.v + 0x1000 }
  else
    let v0 := p.v &&& 0x8FFF
    let y := (v0 &&& 0x03E0) >>> 5
    if y = 29 then
      { p with v := ((v0 ^^^ 0x0800) &&& 0xFC1F) ||| (0 <<< 5) }
    else if y = 31 then
      { p with v := (v0 &&& 0xFC1F) ||| (0 <<< 5) }
    else
      { p with v := (v0 &&& 0xFC1F) ||| ((y + 1) <<< 5) }

/-- PPU.copyHorizontalBitsToV: v gets the horizontal bits of t.  The Go
expression is `(p.v & 0xFBE0) | (p.t &^ 0xFBE0)`; on uint16 the and-not
mask `&^ 0xFBE0` equals `&&& 0x041F`. -/
def PPUTiming.copyHorizontalBitsToV (p : PPUTiming) : PPUTiming :=
  { p with v := (p.v &&& 0xFBE0) ||| (p.t &&& 0x041F) }

/-- PPU.copyVerticalBitsToV: v gets the vertical bits of t.  The Go
expression is `(p.v & 0x041F) | (p.t &^ 0x041F)`; on uint16 the and-not
mask `&^ 0x041F` equals `&&& 0xFBE0`. -/
def PPUTiming.copyVerticalBitsToV (p : PPUTiming) : PPUTiming :=
  { p with v := (p.v &&& 0x041F) ||| (p.t &&& 0xFBE0) }

/-- PPU.incrementTick: advance Tick; the pre-render scanline (261) wraps
to (0,0) of the next frame after tick 340 — one tick early — when the
frame counter is odd, otherwise after tick 341; every other scanline ends
after tick 341.  Note the rendering flags are not consulted. -/
def PPUTiming.incrementTick (p : PPUTiming) : PPUTiming :=
  let tick := p.Tick + 1
  if p.Scanline = 261 ∧ (tick = 341 ∨ (tick = 340 ∧ p.Frame &&& 0x1 ≠ 0)) then
    { p with Scanline := 0, Tick := 0, Frame := p.Frame + 1 }
  else if tick = 341 then
    { p with Scanline := p.Scanline + 1, Tick := 0 }
  else
    { p with Tick := tick }

/-- PPU.Step restricted to the `PPUTiming` fields.  After incrementTick,
the background-fetch block (ticks 1..256 and 321..336, every 8th tick, on
visible or pre-render lines, rendering enabled) advances coarse X, or Y at
tick 256; then at tick 257 of a visible or pre-render line the horizontal
bits of t are copied into v, and at tick 304 of the pre-render line the
vertical bits are copied.  Pixel drawing, tile fetching into the shift
registers, sprite loading, the VBlank/NMI block and the NextScanline
notification touch none of the fields modelled here. -/
def PPUTiming.Step (p : PPUTiming) : PPUTiming :=
  let u := PPUTiming.incrementTick p
  let isRendering := u.flagShowBackground || u.flagShowSprites
  let isVisible := u.Scanline ≤ 239
  let isPrerender := u.Scanline = 261
  let u2 :=
    if isRendering = true ∧ (isVisible ∨ isPrerender) ∧
        ((1 ≤ u.Tick ∧ u.Tick ≤ 256) ∨ (321 ≤ u.Tick ∧ u.Tick ≤ 336)) ∧
        u.Tick % 8 = 0 then
      if u.Tick = 256 then PPUTiming.incrementY u else PPUTiming.incrementCoarseX u
    else
      u
  if isRendering = true then
    if (isVisible ∨ isPrerender) ∧ u.Tick = 257 then
      PPUTiming.copyHorizontalBitsToV u2
    else if isPrerender ∧ u.Tick = 304 then
      PPUTiming.copyVerticalBitsToV u2
    else
      u2
  else
    u2

/-- Iterating PPU.Step n times. -/
def PPUTiming.iter (n : Nat) (p : PPUTiming) : PPUTiming :=
  match n with
  | 0 => p
  | n + 1 => PPUTiming.iter n (PPUTiming.Step p)

/-- The (Scanline, Tick, Frame) clock of the PPU. -/
structure PPUClock where
  Scanline : Nat
  Tick : Nat
  Frame : Nat
deriving DecidableEq

/-- Clock projection of a PPU timing state. -/
def PPUTiming.clock (p : PPUTiming) : PPUClock :=
  ⟨p.Scanline, p.Tick, p.Frame⟩

/-- incrementTick viewed on the clock alone (it reads nothing else). -/
def PPUClock.inc (c : PPUClock) : PPUClock :=
  let tick := c.Tick + 1
  if c.Scanline = 261 ∧ (tick = 341 ∨ (tick = 340 ∧ c.Frame &&& 0x1 ≠ 0)) then
    ⟨0, 0, c.Frame + 1⟩
  else if tick = 341 then
    ⟨c.Scanline + 1, 0, c.Frame⟩
  else
    ⟨c.Scanline, tick, c.Frame⟩

/-- Iterating the clock step n times. -/
def PPUClock.iter (n : Nat) (c : PPUClock) : PPUClock :=
  match n with
  | 0 => c
  | n + 1 => PPUClock.iter n (PPUClock.inc c)

/-! ### PPU sprite memory and OAM DMA (src/nes/ppu.go and CPU.write)

`PPUSprite` carries the PPU sprite RAM and the sprite I/O address. -/

structure PPUSprite where
  sprRAM : Nat → Nat
  sprIOAddress : Nat

/-- PPU.SetSPRAddress: the $2003 register write. -/
def PPUSprite.SetSPRAddress (p : PPUSprite) (address : Nat) : PPUSprite :=
  { p with sprIOAddress := address }

/-- PPU.WriteSPR: the $2004 register write; stores at the current sprite
address, then increments it (a byte, so it wraps mod 256). -/
def PPUSprite.WriteSPR (p : PPUSprite) (value : Nat) : PPUSprite :=
  { p with
    sprRAM := fun a => if a = p.sprIOAddress then value else p.sprRAM a
    sprIOAddress := (p.sprIOAddress + 1) % 256 }

/-- The first n iterations of the OAM DMA loop in CPU.write for a write of
`v` to $4014: after resetting the sprite address to 0, the loop writes
`read(v*$100 + i)` for i = 0,1,2,....  The CPU bus read is abstracted by
the pure map `src`; its possible side effects are on devices outside this
state and do not influence the sprite addressing. -/
def PPUSprite.dmaRun (src : Nat → Nat) (v : Nat) (p : PPUSprite) : Nat → PPUSprite
  | 0 => PPUSprite.SetSPRAddress p 0
  | n + 1 => PPUSprite.WriteSPR (PPUSprite.dmaRun src v p n) (src (v * 256 + n))

/-- The complete OAM DMA triggered by a CPU bus write of `v` to $4014:
reset the sprite address to 0, then perform 256 WriteSPR operations. -/
def PPUSprite.dma (src : Nat → Nat) (v : Nat) (p : PPUSprite) : PPUSprite :=
  PPUSprite.dmaRun src v p 256

/-! ### MMC3 IRQ state (Mapper4, src/nes/mapper0.go) -/

structure Mapper4IRQ where
  irqEnable : Bool
  irqReloadPending : Bool
  irqLatch : Nat
  irqCounter : Nat
  irqAssert : Bool

/-- Mapper4.NextScanline: reload the counter from the latch when it is
zero or a reload is pending (clearing the pending flag), otherwise
decrement it; then, if the counter is zero and IRQ is enabled, set the
asserted flag (it is never cleared here). -/
def Mapper4IRQ.NextScanline (m : Mapper4IRQ) : Mapper4IRQ :=
  let m1 :=
    if m.irqCounter = 0 ∨ m.irqReloadPending then
      { m with irqCounter := m.irqLatch, irqReloadPending := false }
    else
      { m with irqCounter := m.irqCounter - 1 }
  if m1.irqCounter = 0 ∧ m1.irqEnable = true then
    { m1 with irqAssert := true }
  else
    m1

/-- Mapper4.IRQ: return the asserted flag and clear it. -/
def Mapper4IRQ.IRQ (m : Mapper4IRQ) : Bool × Mapper4IRQ :=
  (m.irqAssert, { m with irqAssert := false })

/-! ### MMC1 (src/nes/mapper1.go)

The nametable mirroring modes of the cartridge. -/

inductive Mirroring where
  | horizontal
  | vertical
  | singleLow
  | singleHigh
  | fourScreen
deriving DecidableEq

/-- The MMC1 mapper state: the serial shift register and its write
counter, plus the registers the five-write sequences latch into.  SRAM is
the cartridge save RAM the $6000–$7FFF writes hit; the CHR banks
themselves live on the cartridge and are not modelled (PPU-side writes do
not touch any field here). -/
structure Mapper1 where
  shiftRegisterCount : Nat
  shiftRegister : Nat
  Mirror : Mirroring
  chr8kMode : Bool
  prgBankMode : Nat
  prgBank : Nat
  chrBank0 : Nat
  chrBank1 : Nat
  chrBankOffset0 : Nat
  chrBankOffset1 : Nat
  SRAM : Nat → Nat

/-- The latch performed on the fifth serial write: the assembled 5-bit
value `sr` is stored into the register selected by `addr & 0xE000`
(the switch inside Mapper1.Write). -/
def Mapper1.latch (sel sr : Nat) (m : Mapper1) : Mapper1 :=
  if sel = 0x8000 then
    { m with
      Mirror :=
        if sr &&& 0x3 = 0 then Mirroring.singleLow
        else if sr &&& 0x3 = 1 then Mirroring.singleHigh
        else if sr &&& 0x3 = 2 then Mirroring.vertical
        else Mirroring.horizontal
      chr8kMode := decide (sr &&& 0x10 = 0)
      prgBankMode := (sr &&& 0xC) >>> 2 }
  else if sel = 0xA000 then
    { m with chrBank0 := (sr &&& 0x1E) >>> 1, chrBankOffset0 := (sr &&& 0x1) * 0x1000 }
  else if sel = 0xC000 then
    { m with chrBank1 := (sr &&& 0x1E) >>> 1, chrBankOffset1 := (sr &&& 0x1) * 0x1000 }
  else if sel = 0xE000 then
    { m with prgBank := sr &&& 0xF }
  else
    m

/-- Mapper1.Write on the CPU side (isPPU = false).  Writes to
$6000–$7FFF hit SRAM (note the source masks with `address & 0x1FFF`
here); writes at $8000 and above drive the serial shift register: bit 7
set resets the write counter (and nothing else); otherwise bit 0 is
shifted into the register from the top, the counter is incremented, and
the fifth write latches the register as in `Mapper1.latch` and resets
the counter.  Other addresses are ignored. -/
def Mapper1.WriteCPU (address value : Nat) (m : Mapper1) : Mapper1 :=
  if 0x6000 ≤ address ∧ address < 0x8000 then
    { m with SRAM := fun a => if a = (address &&& 0x1FFF) then value else m.SRAM a }
  else if 0x8000 ≤ address then
    if value &&& 0x80 ≠ 0 then
      { m with shiftRegisterCount := 0 }
    else
      let count := m.shiftRegisterCount + 1
      let sr := (m.shiftRegister >>> 1) ||| ((value &&& 1) <<< 4)
      if count = 5 then
        { Mapper1.latch (address &&& 0xE000) sr m with
            shiftRegisterCount := 0, shiftRegister := sr }
      else
        { m with shiftRegisterCount := count, shiftRegister := sr }
  else
    m

/-- The non-serial register file of the MMC1 (everything an actual
register update changes), as a tuple for compact statements. -/
def Mapper1.regs (m : Mapper1) :
    Mirroring × Bool × Nat × Nat × Nat × Nat × Nat × Nat :=
  (m.Mirror, m.chr8kMode, m.prgBankMode, m.prgBank,
   m.chrBank0, m.chrBank1, m.chrBankOffset0, m.chrBankOffset1)

/-! ### Joypads (the joypad source file and CPU.write)

The joypad state: button booleans, the read index i and the strobe latch.
The readKeys callback invoked at the end of Joypad.Write refreshes only
the eight button fields from the physical input device (see its
documented contract and the GUI wiring); it reads none of the register
state and is not modelled. -/

structure Joypad where
  A : Bool
  B : Bool
  Select : Bool
  Start : Bool
  Up : Bool
  Down : Bool
  Left : Bool
  Right : Bool
  i : Nat
  strobe : Bool

/-- Joypad.Write: reset the read index, latch bit 0 as the strobe. -/
def Joypad.Write (value : Nat) (j : Joypad) : Joypad :=
  { j with i := 0, strobe := decide (value &&& 0x1 ≠ 0) }

/-- The joypad routing of CPU.write: a write to $4016 goes to Joypad[0],
a write to $4017 goes to Joypad[1]; no other address reaches a joypad
(lines 1655–1658 of the CPU source). -/
def cpuWriteJoypads (address value : Nat) (pads : Joypad × Joypad) : Joypad × Joypad :=
  if address = 0x4016 then
    (Joypad.Write value pads.1, pads.2)
  else if address = 0x4017 then
    (pads.1, Joypad.Write value pads.2)
  else
    pads

/-! ### Concrete states used by the concrete instances below -/

/-- A CPU state with the break flag set (reachable: BRK sets it). -/
def cpuBreakSet : CPU := { cpu0 with flagBreak := true }

/-- A CPU state about to ADC with A = $FF and carry set. -/
def cpuAdcCex : CPU := { cpu0 with A := 255, flagCarry := true }

/-- A CPU state whose whole RAM holds opcode $02 (an invalid opcode). -/
def cpuInvalidOp : CPU := { cpu0 with RAM := fun _ => 2 }

/-- The identity continuation for CPU.Step. -/
def execId : Nat → CPU → CPU := fun _ t => t

/-- A PPU at the start of an odd frame with rendering fully disabled. -/
def ppuOddNoRender : PPUTiming :=
  { Scanline := 0, Tick := 0, Frame := 1, v := 0, t := 0,
    flagShowBackground := false, flagShowSprites := false }

/-- A PPU at the start of an even frame with rendering enabled. -/
def ppuEvenRender : PPUTiming :=
  { Scanline := 0, Tick := 0, Frame := 0, v := 0, t := 0,
    flagShowBackground := true, flagShowSprites := true }

/-- A PPU on the pre-render scanline just before tick 280, with vertical
bits of v and t differing and background rendering enabled. -/
def ppuPre280 : PPUTiming :=
  { Scanline := 261, Tick := 279, Frame := 0, v := 0, t := 0x7BE0,
    flagShowBackground := true, flagShowSprites := false }

/-- A PPU on a visible scanline just before tick 257, rendering enabled. -/
def ppuTick256 : PPUTiming :=
  { Scanline := 100, Tick := 256, Frame := 0, v := 0x7FFF, t := 0x1234,
    flagShowBackground := true, flagShowSprites := false }

/-- A PPU on the pre-render scanline just before tick 304. -/
def ppuPre303 : PPUTiming :=
  { Scanline := 261, Tick := 303, Frame := 0, v := 5, t := 0x7BE0,
    flagShowBackground := false, flagShowSprites := true }

/-- An MMC3 IRQ state with a stale assertion: asserted, counter 5. -/
def m4Stale : Mapper4IRQ :=
  { irqEnable := true, irqReloadPending := false, irqLatch := 0,
    irqCounter := 5, irqAssert := true }

/-- An MMC1 state mid-sequence with a non-zero shift register. -/
def m1Cex : Mapper1 :=
  { shiftRegisterCount := 2, shiftRegister := 0x1F, Mirror := Mirroring.vertical,
    chr8kMode := false, prgBankMode := 3, prgBank := 0, chrBank0 := 0,
    chrBank1 := 0, chrBankOffset0 := 0, chrBankOffset1 := 0, SRAM := fun _ => 0 }

/-- An MMC1 state with the serial state idle (count 0). -/
def m1Idle : Mapper1 :=
  { shiftRegisterCount := 0, shiftRegister := 0x15, Mirror := Mirroring.horizontal,
    chr8kMode := true, prgBankMode := 3, prgBank := 2, chrBank0 := 1,
    chrBank1 := 4, chrBankOffset0 := 0, chrBankOffset1 := 0x1000, SRAM := fun _ => 0 }

/-- A joypad with no buttons pressed. -/
def padPlain : Joypad :=
  { A := false, B := false, Select := false, Start := false, Up := false,
    Down := false, Left := false, Right := false, i := 3, strobe := false }

/-- A joypad whose strobe latch is currently high. -/
def padStrobed : Joypad :=
  { A := false, B := false, Select := false, Start := false, Up := false,
    Down := false, Left := false, Right := false, i := 0, strobe := true }

/-- A sprite-memory state whose I/O address was left at $40 by $2003. -/
def sprDirty : PPUSprite := { sprRAM := fun _ => 0, sprIOAddress := 0x40 }

/-- A concrete DMA source page. -/
def srcPage : Nat → Nat := fun a => a % 256

/-! ### Theorems: the 16-bit page-boundary-bug read (claim C2) -/

/-- The CPU bus returns a byte whenever RAM and the peer devices do. -/
theorem CPU.read_lt_256 (c : CPU) (hram : ∀ a, c.RAM a < 256)
    (hext : ∀ a, c.extRead a < 256) (address : Nat) :
    CPU.read c address < 256 := by
  unfold CPU.read
  split
  · exact hram _
  split
  · split
    · exact hext _
    · omega
  split
  · exact hext _
  split
  · exact hext _
  · omega

/-- Masking with $FF extracts the low byte. -/
theorem nat_and_FF (p : Nat) : p &&& 0xFF = p % 256 := by
  have := Nat.and_pow_two_sub_one_eq_mod p 8
  norm_num at this
  exact this

/-- For a 16-bit value, masking with $FF00 clears the low byte. -/
theorem nat_and_FF00 (p : Nat) (hp : p < 65536) : p &&& 0xFF00 = 256 * (p / 256) := by
  have hmul : 256 * (p / 256) = (p >>> 8) <<< 8 := by
    rw [Nat.shiftLeft_eq, Nat.shiftRight_eq_div_pow]
    norm_num
    ring
  apply Nat.eq_of_testBit_eq
  intro i
  rw [Nat.testBit_land, hmul, Nat.testBit_shiftLeft, Nat.testBit_shiftRight]
  rcases Nat.lt_or_ge i 8 with hi | hi
  · have hmask : (0xFF00 : Nat).testBit i = false := by
      interval_cases i <;> decide
    have hge : ¬ i ≥ 8 := by omega
    simp [hmask, hge]
  · rcases Nat.lt_or_ge i 16 with hi16 | hi16
    · have hmask : (0xFF00 : Nat).testBit i = true := by
        interval_cases i <;> decide
      have hidx : 8 + (i - 8) = i := by omega
      simp [hmask, hi, hidx]
    · have hbit : p.testBit i = false := by
        apply Nat.testBit_lt_two_pow
        calc p < 65536 := hp
          _ = 2 ^ 16 := by norm_num
          _ ≤ 2 ^ i := Nat.pow_le_pow_right (by norm_num) hi16
      have hbit2 : p.testBit (8 + (i - 8)) = false := by
        have : 8 + (i - 8) = i := by omega
        rw [this, hbit]
      simp [hbit, hbit2]

/-- C2 (confirmed): for every pointer address p, the 16-bit read used by
indirect JMP and the indirect-X/indirect-Y addressing modes
(CPU.read16WithPageBoundaryBug, called by getAddrIndirect,
getAddrIndirectX and getAddrIndirectY) reproduces the 6502 page-boundary
bug: the low byte of the result is the byte at p, and the high byte is
the byte at p+1 when the low byte of p is not $FF, but the byte at the
start of the same page (p & $FF00) when the low byte of p is $FF. -/
theorem c2_read16_page_boundary_bug (c : CPU) (p : Nat) (hp : p < 65536)
    (hram : ∀ a, c.RAM a < 256) (hext : ∀ a, c.extRead a < 256) :
    CPU.read16WithPageBoundaryBug c p % 256 = CPU.read c p ∧
    CPU.read16WithPageBoundaryBug c p / 256 =
      CPU.read c (if p % 256 = 255 then p - p % 256 else p + 1) := by
  have hlow := CPU.read_lt_256 c hram hext p
  have hcond : (p &&& 0xFF = 0xFF) ↔ (p % 256 = 255) := by
    rw [nat_and_FF]
  simp only [CPU.read16WithPageBoundaryBug]
  by_cases hff : p % 256 = 255
  · rw [if_pos (hcond.mpr hff), if_pos hff, nat_and_FF00 p hp]
    have h2 : 256 * (p / 256) = p - p % 256 := by omega
    rw [h2, nat_lor_shiftLeft8 _ _ hlow]
    have hhigh := CPU.read_lt_256 c hram hext (p - p % 256)
    constructor <;> omega
  · rw [if_neg (fun hx => hff (hcond.mp hx)), if_neg hff]
    have hp1 : (p + 1) % 65536 = p + 1 := by
      apply Nat.mod_eq_of_lt
      omega
    rw [hp1, nat_lor_shiftLeft8 _ _ hlow]
    have hhigh := CPU.read_lt_256 c hram hext (p + 1)
    constructor <;> omega

/-- Concrete instance of c2_read16_page_boundary_bug at the pointer $02FF,
whose low byte is $FF. -/
theorem c2_witness :
    CPU.read16WithPageBoundaryBug cpu0 0x02FF % 256 = CPU.read cpu0 0x02FF ∧
    CPU.read16WithPageBoundaryBug cpu0 0x02FF / 256 =
      CPU.read cpu0 (if 0x02FF % 256 = 255 then 0x02FF - 0x02FF % 256 else 0x02FF + 1) :=
  c2_read16_page_boundary_bug cpu0 0x02FF (by decide)
    (fun a => by simp [cpu0]) (fun a => by simp [cpu0])

/-! ### Theorems: PHP then PLP (claim C6) -/

/-- Unpacking the byte pushed by PHP (P with bit 4 forced on, then masked
by $EF on the pull) restores every flag except Break, which comes back
false. -/
theorem statusByte_roundtrip (c z i d b v n : Bool) :
    (decide (((statusByte c z i d b v n ||| 0x10) &&& 0xEF) &&& 0x01 ≠ 0) = c) ∧
    (decide (((statusByte c z i d b v n ||| 0x10) &&& 0xEF) &&& 0x02 ≠ 0) = z) ∧
    (decide (((statusByte c z i d b v n ||| 0x10) &&& 0xEF) &&& 0x04 ≠ 0) = i) ∧
    (decide (((statusByte c z i d b v n ||| 0x10) &&& 0xEF) &&& 0x08 ≠ 0) = d) ∧
    (decide (((statusByte c z i d b v n ||| 0x10) &&& 0xEF) &&& 0x10 ≠ 0) = false) ∧
    (decide (((statusByte c z i d b v n ||| 0x10) &&& 0xEF) &&& 0x40 ≠ 0) = v) ∧
    (decide (((statusByte c z i d b v n ||| 0x10) &&& 0xEF) &&& 0x80 ≠ 0) = n) := by
  cases c <;> cases z <;> cases i <;> cases d <;> cases b <;> cases v <;> cases n <;> decide

/-- PHP followed by PLP, written out as the state it produces, for a stack
pointer in 1..255 (so that the pull reads back the byte the push wrote). -/
theorem php_plp_eq (c : CPU) (h1 : 1 ≤ c.SP) (h2 : c.SP ≤ 255) :
    CPU.plp (CPU.php c) =
      { c with
        RAM := fun a => if a = ((StackBase + c.SP) &&& 0x7FF) then CPU.P c ||| 0x10 else c.RAM a
        flagCarry := decide (((CPU.P c ||| 0x10) &&& 0xEF) &&& 0x01 ≠ 0)
        flagZero := decide (((CPU.P c ||| 0x10) &&& 0xEF) &&& 0x02 ≠ 0)
        flagInterruptDisable := decide (((CPU.P c ||| 0x10) &&& 0xEF) &&& 0x04 ≠ 0)
        flagDecimalMode := decide (((CPU.P c ||| 0x10) &&& 0xEF) &&& 0x08 ≠ 0)
        flagBreak := decide (((CPU.P c ||| 0x10) &&& 0xEF) &&& 0x10 ≠ 0)
        flagOverflow := decide (((CPU.P c ||| 0x10) &&& 0xEF) &&& 0x40 ≠ 0)
        flagSign := decide (((CPU.P c ||| 0x10) &&& 0xEF) &&& 0x80 ≠ 0) } := by
  have haddr : StackBase + c.SP < 0x2000 := by
    unfold StackBase
    omega
  have hphp : CPU.php c =
      { c with
        RAM := fun a => if a = ((StackBase + c.SP) &&& 0x7FF) then CPU.P c ||| 0x10 else c.RAM a
        SP := c.SP - 1 } := by
    unfold CPU.php CPU.push8 CPU.write
    rw [if_pos haddr]
    have : (c.SP + 255) % 256 = c.SP - 1 := by omega
    simp [this]
  rw [hphp]
  unfold CPU.plp CPU.pop8 CPU.read
  have haddr2 : StackBase + (c.SP - 1) + 1 = StackBase + c.SP := by omega
  rw [haddr2]
  have hsp2 : (c.SP - 1 + 1) % 256 = c.SP := by omega
  simp [haddr, hsp2]

/-- C6 (corrected): for every CPU state whose stack pointer is in 1..255,
executing PHP followed by PLP leaves the flags C, Z, I, D, V and N
unchanged, and leaves the B flag clear — not necessarily equal to its
previous value — because PHP pushes P with bit 4 forced on and PLP masks
bit 4 off before unpacking. -/
theorem c6_php_plp_amended (c : CPU) (h1 : 1 ≤ c.SP) (h2 : c.SP ≤ 255) :
    (CPU.plp (CPU.php c)).flagCarry = c.flagCarry ∧
    (CPU.plp (CPU.php c)).flagZero = c.flagZero ∧
    (CPU.plp (CPU.php c)).flagInterruptDisable = c.flagInterruptDisable ∧
    (CPU.plp (CPU.php c)).flagDecimalMode = c.flagDecimalMode ∧
    (CPU.plp (CPU.php c)).flagBreak = false ∧
    (CPU.plp (CPU.php c)).flagOverflow = c.flagOverflow ∧
    (CPU.plp (CPU.php c)).flagSign = c.flagSign := by
  rw [php_plp_eq c h1 h2]
  exact statusByte_roundtrip c.flagCarry c.flagZero c.flagInterruptDisable
    c.flagDecimalMode c.flagBreak c.flagOverflow c.flagSign

/-- C6 counterexample: starting from a state with the break flag set
(BRK sets it), PHP followed by PLP leaves the break flag false, so not
every one of the seven flags is restored. -/
theorem c6_counterexample :
    (CPU.plp (CPU.php cpuBreakSet)).flagBreak = false ∧
    cpuBreakSet.flagBreak = true := by
  constructor <;> rfl

/-- Concrete instance of c6_php_plp_amended at a power-on state. -/
theorem c6_witness :
    (CPU.plp (CPU.php cpu0)).flagCarry = cpu0.flagCarry ∧
    (CPU.plp (CPU.php cpu0)).flagZero = cpu0.flagZero ∧
    (CPU.plp (CPU.php cpu0)).flagInterruptDisable = cpu0.flagInterruptDisable ∧
    (CPU.plp (CPU.php cpu0)).flagDecimalMode = cpu0.flagDecimalMode ∧
    (CPU.plp (CPU.php cpu0)).flagBreak = false ∧
    (CPU.plp (CPU.php cpu0)).flagOverflow = cpu0.flagOverflow ∧
    (CPU.plp (CPU.php cpu0)).flagSign = cpu0.flagSign :=
  c6_php_plp_amended cpu0 (by decide) (by decide)

/-! ### Theorems: ADC followed by SBC (claim C7) -/

/-- ADC changes only A and the flags, so a bus read is unaffected. -/
theorem CPU.read_adc (c : CPU) (a x : Nat) :
    CPU.read (CPU.adc c a) x = CPU.read c x := rfl

/-- C7 (corrected): for accumulator A and operand byte M with
A + M + 1 ≤ $FF (so the ADC produces no carry out), executing ADC of M
starting with the carry flag set, followed by SBC of the same M with the
carry as left by the ADC, restores A and leaves the carry flag set.  When
the ADC carries out, the pair instead yields A+1 (mod 256), as the
counterexample shows. -/
theorem c7_adc_sbc_amended (c : CPU) (address : Nat)
    (hc : c.flagCarry = true) (hA : c.A < 256)
    (hM : CPU.read c address < 256)
    (hsum : c.A + CPU.read c address + 1 ≤ 255) :
    (CPU.sbc (CPU.adc c address) address).A = c.A ∧
    (CPU.sbc (CPU.adc c address) address).flagCarry = true := by
  have hread : CPU.read (CPU.adc c address) address = CPU.read c address := rfl
  have hadcA : (CPU.adc c address).A = (c.A + CPU.read c address + 1) % 256 := by
    simp [CPU.adc, hc]
  have hmod : (c.A + CPU.read c address + 1) % 256 = c.A + CPU.read c address + 1 :=
    Nat.mod_eq_of_lt (by omega)
  have hcarryFalse : (CPU.adc c address).flagCarry = false := by
    simp [CPU.adc, hc]
    omega
  constructor
  · have h1 : (CPU.sbc (CPU.adc c address) address).A
        = ((CPU.adc c address).A + 512 - (CPU.read c address + 1)) % 256 := by
      simp [CPU.sbc, hread, hcarryFalse]
    rw [h1, hadcA, hmod]
    omega
  · have h2 : (CPU.sbc (CPU.adc c address) address).flagCarry
        = decide (CPU.read c address + 1 ≤ (CPU.adc c address).A) := by
      simp [CPU.sbc, hread, hcarryFalse]
    rw [h2, hadcA, hmod]
    simp

/-- C7 counterexample: with A = $FF, M = 0 and carry set, the ADC carries
out and the subsequent SBC of the same operand leaves A = 0, not $FF. -/
theorem c7_counterexample :
    (CPU.sbc (CPU.adc cpuAdcCex 0) 0).A = 0 ∧ cpuAdcCex.A = 255 := by
  constructor <;> rfl

/-- Concrete instance of c7_adc_sbc_amended with A = 3 and M = 0. -/
theorem c7_witness :
    (CPU.sbc (CPU.adc { cpu0 with A := 3, flagCarry := true } 0) 0).A
      = ({ cpu0 with A := 3, flagCarry := true } : CPU).A ∧
    (CPU.sbc (CPU.adc { cpu0 with A := 3, flagCarry := true } 0) 0).flagCarry = true :=
  c7_adc_sbc_amended { cpu0 with A := 3, flagCarry := true } 0 rfl (by decide)
    (by decide) (by decide)

/-! ### Theorems: CPU.Step on an invalid opcode (claim C10) -/

/-- C10 (confirmed): if the opcode fetched at PC has a size-0 table entry
and no IRQ is taken at the start of the step (the interrupt-disable flag
is set or the cartridge does not assert IRQ), then CPU.Step returns an
invalid-instruction error and leaves the CPU state — in particular PC,
SP, A, X, Y, all seven flags and NumCycles — exactly as it was, for every
valid-opcode continuation exec. -/
theorem c10_invalid_opcode (exec : Nat → CPU → CPU) (c : CPU)
    (hirq : c.flagInterruptDisable = true ∨ c.cartIRQ = false)
    (hsize : instructionSize (CPU.read c c.PC) = 0) :
    CPU.Step exec c = (some (CPUErr.invalidInstruction (CPU.read c c.PC) c.PC), c) ∧
    (CPU.Step exec c).2.PC = c.PC ∧
    (CPU.Step exec c).2.SP = c.SP ∧
    (CPU.Step exec c).2.A = c.A ∧
    (CPU.Step exec c).2.X = c.X ∧
    (CPU.Step exec c).2.Y = c.Y ∧
    (CPU.Step exec c).2.flagCarry = c.flagCarry ∧
    (CPU.Step exec c).2.flagZero = c.flagZero ∧
    (CPU.Step exec c).2.flagInterruptDisable = c.flagInterruptDisable ∧
    (CPU.Step exec c).2.flagDecimalMode = c.flagDecimalMode ∧
    (CPU.Step exec c).2.flagBreak = c.flagBreak ∧
    (CPU.Step exec c).2.flagOverflow = c.flagOverflow ∧
    (CPU.Step exec c).2.flagSign = c.flagSign ∧
    (CPU.Step exec c).2.NumCycles = c.NumCycles := by
  have hnot : ¬ (c.flagInterruptDisable = false ∧ c.cartIRQ = true) := by
    rcases hirq with h | h <;> simp [h]
  have hstep : CPU.Step exec c
      = (some (CPUErr.invalidInstruction (CPU.read c c.PC) c.PC), c) := by
    unfold CPU.Step
    rw [if_neg hnot, if_pos hsize]
  rw [hstep]
  exact ⟨rfl, rfl, rfl, rfl, rfl, rfl, rfl, rfl, rfl, rfl, rfl, rfl, rfl, rfl⟩

/-- Concrete instance of c10_invalid_opcode: RAM full of opcode $02. -/
theorem c10_witness :
    CPU.Step execId cpuInvalidOp
      = (some (CPUErr.invalidInstruction (CPU.read cpuInvalidOp cpuInvalidOp.PC)
          cpuInvalidOp.PC), cpuInvalidOp) ∧
    (CPU.Step execId cpuInvalidOp).2.PC = cpuInvalidOp.PC ∧
    (CPU.Step execId cpuInvalidOp).2.SP = cpuInvalidOp.SP ∧
    (CPU.Step execId cpuInvalidOp).2.A = cpuInvalidOp.A ∧
    (CPU.Step execId cpuInvalidOp).2.X = cpuInvalidOp.X ∧
    (CPU.Step execId cpuInvalidOp).2.Y = cpuInvalidOp.Y ∧
    (CPU.Step execId cpuInvalidOp).2.flagCarry = cpuInvalidOp.flagCarry ∧
    (CPU.Step execId cpuInvalidOp).2.flagZero = cpuInvalidOp.flagZero ∧
    (CPU.Step execId cpuInvalidOp).2.flagInterruptDisable = cpuInvalidOp.flagInterruptDisable ∧
    (CPU.Step execId cpuInvalidOp).2.flagDecimalMode = cpuInvalidOp.flagDecimalMode ∧
    (CPU.Step execId cpuInvalidOp).2.flagBreak = cpuInvalidOp.flagBreak ∧
    (CPU.Step execId cpuInvalidOp).2.flagOverflow = cpuInvalidOp.flagOverflow ∧
    (CPU.Step execId cpuInvalidOp).2.flagSign = cpuInvalidOp.flagSign ∧
    (CPU.Step execId cpuInvalidOp).2.NumCycles = cpuInvalidOp.NumCycles :=
  c10_invalid_opcode execId cpuInvalidOp (Or.inl rfl) (by decide)

/-! ### Theorems: PPU clock and frame length (claim C4) -/

/-- incrementCoarseX changes only v. -/
theorem clock_incrementCoarseX (p : PPUTiming) :
    (PPUTiming.incrementCoarseX p).clock = p.clock := by
  unfold PPUTiming.incrementCoarseX
  split <;> rfl

/-- incrementY changes only v. -/
theorem clock_incrementY (p : PPUTiming) :
    (PPUTiming.incrementY p).clock = p.clock := by
  unfold PPUTiming.incrementY
  dsimp only
  split
  · rfl
  · split
    · rfl
    · split <;> rfl

/-- copyHorizontalBitsToV changes only v. -/
theorem clock_copyHorizontal (p : PPUTiming) :
    (PPUTiming.copyHorizontalBitsToV p).clock = p.clock := rfl

/-- copyVerticalBitsToV changes only v. -/
theorem clock_copyVertical (p : PPUTiming) :
    (PPUTiming.copyVerticalBitsToV p).clock = p.clock := rfl

/-- incrementTick acts on the (Scanline, Tick, Frame) clock alone. -/
theorem clock_incrementTick (p : PPUTiming) :
    (PPUTiming.incrementTick p).clock = PPUClock.inc p.clock := by
  unfold PPUTiming.incrementTick PPUClock.inc
  dsimp only [PPUTiming.clock]
  by_cases h1 : p.Scanline = 261 ∧ (p.Tick + 1 = 341 ∨ (p.Tick + 1 = 340 ∧ p.Frame &&& 0x1 ≠ 0))
  · rw [if_pos h1, if_pos h1]
  · rw [if_neg h1, if_neg h1]
    by_cases h2 : p.Tick + 1 = 341
    · rw [if_pos h2, if_pos h2]
    · rw [if_neg h2, if_neg h2]

/-- A whole PPU step moves the clock exactly as incrementTick does: none
of the later blocks touch Scanline, Tick or Frame. -/
theorem clock_Step (p : PPUTiming) :
    (PPUTiming.Step p).clock = PPUClock.inc p.clock := by
  rw [← clock_incrementTick]
  unfold PPUTiming.Step
  dsimp only
  repeat' split
  all_goals
    simp [clock_copyHorizontal, clock_copyVertical, clock_incrementY, clock_incrementCoarseX]

/-- Iterating Step simulates iterating the clock step. -/
theorem clock_iter (n : Nat) (p : PPUTiming) :
    (PPUTiming.iter n p).clock = PPUClock.iter n p.clock := by
  induction n generalizing p with
  | zero => rfl
  | succ n ih =>
    show (PPUTiming.iter n (PPUTiming.Step p)).clock = PPUClock.iter n (PPUClock.inc p.clock)
    rw [ih, clock_Step]

/-- Splitting a clock iteration. -/
theorem PPUClock.iter_add (a b : Nat) (c : PPUClock) :
    PPUClock.iter (a + b) c = PPUClock.iter b (PPUClock.iter a c) := by
  induction a generalizing c with
  | zero => simp [PPUClock.iter]
  | succ a ih =>
    have h : a + 1 + b = (a + b) + 1 := by omega
    rw [h]
    show PPUClock.iter (a + b) (PPUClock.inc c) = _
    rw [ih]
    rfl

/-- The clock step in the middle of a scanline just advances Tick. -/
theorem PPUClock.inc_mid (sl tick f : Nat)
    (h : ¬ (sl = 261 ∧ (tick + 1 = 341 ∨ (tick + 1 = 340 ∧ f &&& 0x1 ≠ 0))))
    (h2 : tick + 1 ≠ 341) :
    PPUClock.inc ⟨sl, tick, f⟩ = ⟨sl, tick + 1, f⟩ := by
  unfold PPUClock.inc
  dsimp only
  rw [if_neg h, if_neg h2]

/-- On a scanline below 261, ticking from tick position `tick` to the end
of the scanline (341 ticks total per scanline) lands on the next scanline
at tick 0. -/
theorem clock_scanline_end (k : Nat) :
    ∀ tick sl f, sl < 261 → tick + k = 340 →
      PPUClock.iter (k + 1) ⟨sl, tick, f⟩ = ⟨sl + 1, 0, f⟩ := by
  induction k with
  | zero =>
    intro tick sl f h1 h2
    have ht : tick = 340 := by omega
    subst ht
    have hsl : ¬ (sl = 261 ∧ ((340 : Nat) + 1 = 341 ∨ ((340 : Nat) + 1 = 340 ∧ f &&& 0x1 ≠ 0))) := by
      rintro ⟨h, -⟩
      omega
    show PPUClock.iter 0 (PPUClock.inc ⟨sl, 340, f⟩) = _
    unfold PPUClock.inc
    dsimp only
    rw [if_neg hsl, if_pos rfl]
    rfl
  | succ k ih =>
    intro tick sl f h1 h2
    have hstep : PPUClock.inc ⟨sl, tick, f⟩ = ⟨sl, tick + 1, f⟩ := by
      apply PPUClock.inc_mid
      · rintro ⟨h, -⟩
        omega
      · omega
    show PPUClock.iter (k + 1) (PPUClock.inc ⟨sl, tick, f⟩) = _
    rw [hstep]
    exact ih (tick + 1) sl f h1 (by omega)

/-- Running m whole scanlines from the start of scanline sl. -/
theorem clock_scanlines (m : Nat) :
    ∀ sl f, sl + m ≤ 261 →
      PPUClock.iter (341 * m) ⟨sl, 0, f⟩ = ⟨sl + m, 0, f⟩ := by
  induction m with
  | zero => intro sl f h; rfl
  | succ m ih =>
    intro sl f h
    have hsplit : 341 * (m + 1) = 341 + 341 * m := by ring
    rw [hsplit, PPUClock.iter_add]
    have h341 : PPUClock.iter 341 (⟨sl, 0, f⟩ : PPUClock) = ⟨sl + 1, 0, f⟩ :=
      clock_scanline_end 340 0 sl f (by omega) (by omega)
    have hfin : (⟨sl + 1 + m, 0, f⟩ : PPUClock) = ⟨sl + (m + 1), 0, f⟩ := by
      have hn : sl + 1 + m = sl + (m + 1) := by omega
      rw [hn]
    exact (congrArg (PPUClock.iter (341 * m)) h341).trans
      ((ih (sl + 1) f (by omega)).trans hfin)

/-- The pre-render scanline of an even frame runs 341 ticks and wraps to
scanline 0 of the next frame. -/
theorem clock_prerender_even (k : Nat) :
    ∀ tick f, f &&& 0x1 = 0 → tick + k = 340 →
      PPUClock.iter (k + 1) ⟨261, tick, f⟩ = ⟨0, 0, f + 1⟩ := by
  induction k with
  | zero =>
    intro tick f heven h2
    have ht : tick = 340 := by omega
    subst ht
    show PPUClock.iter 0 (PPUClock.inc ⟨261, 340, f⟩) = _
    unfold PPUClock.inc
    dsimp only
    rw [if_pos ⟨rfl, Or.inl rfl⟩]
    rfl
  | succ k ih =>
    intro tick f heven h2
    have hstep : PPUClock.inc ⟨261, tick, f⟩ = ⟨261, tick + 1, f⟩ := by
      apply PPUClock.inc_mid
      · rintro ⟨-, h | ⟨-, h⟩⟩
        · omega
        · rw [heven] at h
          omega
      · omega
    show PPUClock.iter (k + 1) (PPUClock.inc ⟨261, tick, f⟩) = _
    rw [hstep]
    exact ih (tick + 1) f heven (by omega)

/-- The pre-render scanline of an odd frame runs only 340 ticks and wraps
to scanline 0 of the next frame. -/
theorem clock_prerender_odd (k : Nat) :
    ∀ tick f, f &&& 0x1 ≠ 0 → tick + k = 339 →
      PPUClock.iter (k + 1) ⟨261, tick, f⟩ = ⟨0, 0, f + 1⟩ := by
  induction k with
  | zero =>
    intro tick f hodd h2
    have ht : tick = 339 := by omega
    subst ht
    show PPUClock.iter 0 (PPUClock.inc ⟨261, 339, f⟩) = _
    unfold PPUClock.inc
    dsimp only
    rw [if_pos ⟨rfl, Or.inr ⟨rfl, hodd⟩⟩]
    rfl
  | succ k ih =>
    intro tick f hodd h2
    have hstep : PPUClock.inc ⟨261, tick, f⟩ = ⟨261, tick + 1, f⟩ := by
      apply PPUClock.inc_mid
      · rintro ⟨-, h | ⟨h, -⟩⟩ <;> omega
      · omega
    show PPUClock.iter (k + 1) (PPUClock.inc ⟨261, tick, f⟩) = _
    rw [hstep]
    exact ih (tick + 1) f hodd (by omega)

/-- A full even frame takes 341*262 clock ticks. -/
theorem clock_frame_even (f : Nat) (h : f &&& 0x1 = 0) :
    PPUClock.iter (341 * 262) ⟨0, 0, f⟩ = ⟨0, 0, f + 1⟩ := by
  have hsplit : 341 * 262 = 341 * 261 + 341 := by norm_num
  rw [hsplit, PPUClock.iter_add]
  have h1 : PPUClock.iter (341 * 261) (⟨0, 0, f⟩ : PPUClock) = ⟨261, 0, f⟩ := by
    have := clock_scanlines 261 0 f (by omega)
    simpa using this
  exact (congrArg (PPUClock.iter 341) h1).trans
    (clock_prerender_even 340 0 f h (by omega))

/-- A full odd frame takes 341*262 - 1 clock ticks. -/
theorem clock_frame_odd (f : Nat) (h : f &&& 0x1 ≠ 0) :
    PPUClock.iter (341 * 262 - 1) ⟨0, 0, f⟩ = ⟨0, 0, f + 1⟩ := by
  have hsplit : 341 * 262 - 1 = 341 * 261 + 340 := by norm_num
  rw [hsplit, PPUClock.iter_add]
  have h1 : PPUClock.iter (341 * 261) (⟨0, 0, f⟩ : PPUClock) = ⟨261, 0, f⟩ := by
    have := clock_scanlines 261 0 f (by omega)
    simpa using this
  exact (congrArg (PPUClock.iter 340) h1).trans
    (clock_prerender_odd 339 0 f h (by omega))

/-- C4 (corrected): the odd-frame skip of one pre-render tick does not
depend on rendering at all — incrementTick never consults the mask bits.
From the start of a frame, an odd frame takes 341*262 - 1 PPU ticks (the
pre-render scanline wraps after tick 340) and an even frame takes the
full 341*262 ticks, whatever the values of flagShowBackground and
flagShowSprites. -/
theorem c4_frame_length_amended (p : PPUTiming)
    (hsl : p.Scanline = 0) (ht : p.Tick = 0) :
    (p.Frame &&& 0x1 ≠ 0 →
      (PPUTiming.iter (341 * 262 - 1) p).clock = ⟨0, 0, p.Frame + 1⟩) ∧
    (p.Frame &&& 0x1 = 0 →
      (PPUTiming.iter (341 * 262) p).clock = ⟨0, 0, p.Frame + 1⟩) := by
  have hclock : p.clock = ⟨0, 0, p.Frame⟩ := by
    unfold PPUTiming.clock
    rw [hsl, ht]
  constructor <;> intro h
  · rw [clock_iter, hclock]
    exact clock_frame_odd p.Frame h
  · rw [clock_iter, hclock]
    exact clock_frame_even p.Frame h

/-- C4 counterexample: from the start of frame 1 (odd) with background
and sprite rendering both disabled, 341*262 - 1 PPU steps already
complete the frame (the clock is back at scanline 0, tick 0, frame 2), so
a frame with rendering disabled does not take the full 341*262 ticks. -/
theorem c4_counterexample :
    ppuOddNoRender.flagShowBackground = false ∧
    ppuOddNoRender.flagShowSprites = false ∧
    (PPUTiming.iter (341 * 262 - 1) ppuOddNoRender).clock = ⟨0, 0, 2⟩ := by
  refine ⟨rfl, rfl, ?_⟩
  rw [clock_iter]
  have hclock : ppuOddNoRender.clock = ⟨0, 0, 1⟩ := rfl
  rw [hclock]
  exact clock_frame_odd 1 (by decide)

/-- Concrete instances of c4_frame_length_amended for an odd and an even
frame. -/
theorem c4_witness :
    (PPUTiming.iter (341 * 262 - 1) ppuOddNoRender).clock
      = ⟨0, 0, ppuOddNoRender.Frame + 1⟩ ∧
    (PPUTiming.iter (341 * 262) ppuEvenRender).clock
      = ⟨0, 0, ppuEvenRender.Frame + 1⟩ :=
  ⟨(c4_frame_length_amended ppuOddNoRender rfl rfl).1 (by decide),
   (c4_frame_length_amended ppuEvenRender rfl rfl).2 (by decide)⟩

/-! ### Theorems: loopy-register copies in PPU.Step (claim C5) -/

/-- In the middle of a scanline, incrementTick just advances Tick. -/
theorem incrementTick_small (p : PPUTiming) (h : p.Tick + 1 < 340) :
    PPUTiming.incrementTick p = { p with Tick := p.Tick + 1 } := by
  have h1 : ¬ (p.Scanline = 261 ∧
      (p.Tick + 1 = 341 ∨ (p.Tick + 1 = 340 ∧ p.Frame &&& 0x1 ≠ 0))) := by
    rintro ⟨-, h2 | ⟨h2, -⟩⟩ <;> omega
  have h2 : ¬ (p.Tick + 1 = 341) := by omega
  unfold PPUTiming.incrementTick
  dsimp only
  rw [if_neg h1, if_neg h2]

/-- Distributing the second mask of a loopy copy: the copied field of
`(a & m1) | (b & m2)` is exactly `b & m2` when the masks are disjoint. -/
theorem mask_copy (a b m1 m2 : Nat) (hdisj : m1 &&& m2 = 0) (hidem : m2 &&& m2 = m2) :
    ((a &&& m1) ||| (b &&& m2)) &&& m2 = b &&& m2 := by
  rw [nat_or_and_mask, Nat.and_assoc, Nat.and_assoc, hdisj, hidem, Nat.and_zero, Nat.zero_or]

/-- C5 (corrected): with rendering enabled, the PPU step that lands on
tick 257 of a visible or pre-render scanline copies the horizontal bits
of t into v; the vertical bits of t are copied into v only by the step
that lands on tick 304 of the pre-render scanline — after which they
match — while the steps landing on ticks 280..303 leave v unchanged
(rather than copying at every tick of 280..304 as claimed). -/
theorem c5_scroll_copy_amended :
    (∀ p : PPUTiming, (p.flagShowBackground || p.flagShowSprites) = true →
      (p.Scanline ≤ 239 ∨ p.Scanline = 261) → p.Tick = 256 →
      (PPUTiming.Step p).v = (p.v &&& 0xFBE0) ||| (p.t &&& 0x041F) ∧
      (PPUTiming.Step p).v &&& 0x041F = p.t &&& 0x041F) ∧
    (∀ p : PPUTiming, (p.flagShowBackground || p.flagShowSprites) = true →
      p.Scanline = 261 → p.Tick = 303 →
      (PPUTiming.Step p).v = (p.v &&& 0x041F) ||| (p.t &&& 0xFBE0) ∧
      (PPUTiming.Step p).v &&& 0xFBE0 = p.t &&& 0xFBE0) ∧
    (∀ p : PPUTiming, p.Scanline = 261 → 279 ≤ p.Tick → p.Tick ≤ 302 →
      (PPUTiming.Step p).v = p.v) := by
  refine ⟨?_, ?_, ?_⟩
  · intro p hr hsl ht
    have hu : PPUTiming.incrementTick p = { p with Tick := 257 } := by
      have hs := incrementTick_small p (by omega)
      rw [ht] at hs
      norm_num at hs
      exact hs
    unfold PPUTiming.Step
    rw [hu]
    dsimp only
    have hfetch : ¬ ((p.flagShowBackground || p.flagShowSprites) = true ∧
        (p.Scanline ≤ 239 ∨ p.Scanline = 261) ∧
        ((1 ≤ (257 : Nat) ∧ (257 : Nat) ≤ 256) ∨ ((321 : Nat) ≤ 257 ∧ (257 : Nat) ≤ 336)) ∧
        (257 : Nat) % 8 = 0) := by
      rintro ⟨-, -, ⟨-, hx⟩ | ⟨hx, -⟩, -⟩ <;> omega
    rw [if_neg hfetch, if_pos hr, if_pos (And.intro hsl rfl)]
    refine ⟨rfl, ?_⟩
    show ((p.v &&& 0xFBE0) ||| (p.t &&& 0x041F)) &&& 0x041F = p.t &&& 0x041F
    exact mask_copy _ _ _ _ (by decide) (by decide)
  · intro p hr hsl ht
    have hu : PPUTiming.incrementTick p = { p with Tick := 304 } := by
      have hs := incrementTick_small p (by omega)
      rw [ht] at hs
      norm_num at hs
      exact hs
    unfold PPUTiming.Step
    rw [hu]
    dsimp only
    have hfetch : ¬ ((p.flagShowBackground || p.flagShowSprites) = true ∧
        (p.Scanline ≤ 239 ∨ p.Scanline = 261) ∧
        ((1 ≤ (304 : Nat) ∧ (304 : Nat) ≤ 256) ∨ ((321 : Nat) ≤ 304 ∧ (304 : Nat) ≤ 336)) ∧
        (304 : Nat) % 8 = 0) := by
      rintro ⟨-, -, ⟨-, hx⟩ | ⟨hx, -⟩, -⟩ <;> omega
    have hc1 : ¬ ((p.Scanline ≤ 239 ∨ p.Scanline = 261) ∧ (304 : Nat) = 257) := by
      rintro ⟨-, hx⟩
      omega
    rw [if_neg hfetch, if_pos hr, if_neg hc1, if_pos (And.intro hsl rfl)]
    refine ⟨rfl, ?_⟩
    show ((p.v &&& 0x041F) ||| (p.t &&& 0xFBE0)) &&& 0xFBE0 = p.t &&& 0xFBE0
    exact mask_copy _ _ _ _ (by decide) (by decide)
  · intro p hsl h1 h2
    have hu : PPUTiming.incrementTick p = { p with Tick := p.Tick + 1 } :=
      incrementTick_small p (by omega)
    unfold PPUTiming.Step
    rw [hu]
    dsimp only
    have hfetch : ¬ ((p.flagShowBackground || p.flagShowSprites) = true ∧
        (p.Scanline ≤ 239 ∨ p.Scanline = 261) ∧
        ((1 ≤ p.Tick + 1 ∧ p.Tick + 1 ≤ 256) ∨ (321 ≤ p.Tick + 1 ∧ p.Tick + 1 ≤ 336)) ∧
        (p.Tick + 1) % 8 = 0) := by
      rintro ⟨-, -, ⟨-, hx⟩ | ⟨hx, -⟩, -⟩ <;> omega
    have hc1 : ¬ ((p.Scanline ≤ 239 ∨ p.Scanline = 261) ∧ p.Tick + 1 = 257) := by
      rintro ⟨-, hx⟩
      omega
    have hc2 : ¬ (p.Scanline = 261 ∧ p.Tick + 1 = 304) := by
      rintro ⟨-, hx⟩
      omega
    rw [if_neg hfetch, if_neg hc1, if_neg hc2]
    split <;> rfl

/-- C5 counterexample: on the pre-render scanline with rendering enabled,
the step landing on tick 280 leaves the vertical bits of v untouched, so
they differ from those of t — the vertical copy does not happen at every
tick of 280..304. -/
theorem c5_counterexample :
    ppuPre280.Scanline = 261 ∧
    (ppuPre280.flagShowBackground || ppuPre280.flagShowSprites) = true ∧
    (PPUTiming.Step ppuPre280).Tick = 280 ∧
    (PPUTiming.Step ppuPre280).v &&& 0xFBE0 ≠ (PPUTiming.Step ppuPre280).t &&& 0xFBE0 := by
  refine ⟨rfl, rfl, rfl, ?_⟩
  decide

/-- Concrete instances of the three parts of c5_scroll_copy_amended. -/
theorem c5_witness :
    ((PPUTiming.Step ppuTick256).v = (ppuTick256.v &&& 0xFBE0) ||| (ppuTick256.t &&& 0x041F) ∧
     (PPUTiming.Step ppuTick256).v &&& 0x041F = ppuTick256.t &&& 0x041F) ∧
    ((PPUTiming.Step ppuPre303).v = (ppuPre303.v &&& 0x041F) ||| (ppuPre303.t &&& 0xFBE0) ∧
     (PPUTiming.Step ppuPre303).v &&& 0xFBE0 = ppuPre303.t &&& 0xFBE0) ∧
    (PPUTiming.Step ppuPre280).v = ppuPre280.v :=
  ⟨c5_scroll_copy_amended.1 ppuTick256 rfl (Or.inl (by decide)) rfl,
   c5_scroll_copy_amended.2.1 ppuPre303 rfl rfl rfl,
   c5_scroll_copy_amended.2.2 ppuPre280 rfl (by decide) (by decide)⟩

/-! ### Theorems: OAM DMA (claim C9) -/

/-- Invariant of the DMA loop: after the address reset and n writes
(n ≤ 256), the sprite I/O address is n mod 256 and the first n bytes of
the source page sit at sprite-RAM offsets 0..n-1 in order. -/
theorem dmaRun_invariant (src : Nat → Nat) (v : Nat) (p : PPUSprite) (n : Nat)
    (hn : n ≤ 256) :
    (PPUSprite.dmaRun src v p n).sprIOAddress = n % 256 ∧
    ∀ j, j < n → (PPUSprite.dmaRun src v p n).sprRAM j = src (v * 256 + j) := by
  induction n with
  | zero =>
    constructor
    · rfl
    · intro j hj
      omega
  | succ n ih =>
    obtain ⟨ha, hram⟩ := ih (by omega)
    have hn255 : n % 256 = n := Nat.mod_eq_of_lt (by omega)
    constructor
    · show ((PPUSprite.dmaRun src v p n).sprIOAddress + 1) % 256 = (n + 1) % 256
      rw [ha, hn255]
    · intro j hj
      show (if j = (PPUSprite.dmaRun src v p n).sprIOAddress
          then src (v * 256 + n)
          else (PPUSprite.dmaRun src v p n).sprRAM j) = src (v * 256 + j)
      rw [ha, hn255]
      rcases Nat.lt_or_ge j n with hlt | hge
      · rw [if_neg (by omega)]
        exact hram j hlt
      · have hjn : j = n := by omega
        rw [if_pos hjn, hjn]

/-- C9 (confirmed): an OAM DMA (CPU bus write of v to $4014) first resets
the sprite I/O address to 0, so the 256 bytes read from page v*$100 land
at sprite-RAM offsets 0..255 in order regardless of the address
previously set through $2003, and the sprite I/O address has wrapped back
to 0 when the DMA completes. -/
theorem c9_oam_dma (src : Nat → Nat) (v : Nat) (p : PPUSprite) (j : Nat)
    (hj : j < 256) :
    (PPUSprite.dma src v p).sprRAM j = src (v * 256 + j) ∧
    (PPUSprite.dma src v p).sprIOAddress = 0 := by
  obtain ⟨ha, hram⟩ := dmaRun_invariant src v p 256 (by omega)
  exact ⟨hram j hj, ha⟩

/-- Concrete instance of c9_oam_dma: source page 2, stale sprite address
$40, offset 7. -/
theorem c9_witness :
    (PPUSprite.dma srcPage 2 sprDirty).sprRAM 7 = srcPage (2 * 256 + 7) ∧
    (PPUSprite.dma srcPage 2 sprDirty).sprIOAddress = 0 :=
  c9_oam_dma srcPage 2 sprDirty 7 (by decide)

/-! ### Theorems: MMC3 scanline IRQ (claim C1) -/

/-- C1 (corrected): Mapper4.NextScanline reloads the counter from the
latch when it is zero or a reload is pending (the pending flag is clear
afterwards in every case) and otherwise decrements it; after the update
the IRQ-asserted state is set to true when the counter is zero and IRQ is
enabled, and otherwise keeps its previous value — it is not cleared, so
a stale assertion can persist with a non-zero counter.  A poll of IRQ()
returns the asserted state, clears it, and changes nothing else. -/
theorem c1_mmc3_irq_amended (m : Mapper4IRQ) :
    (Mapper4IRQ.NextScanline m).irqCounter =
      (if m.irqCounter = 0 ∨ m.irqReloadPending then m.irqLatch else m.irqCounter - 1) ∧
    (Mapper4IRQ.NextScanline m).irqReloadPending = false ∧
    (Mapper4IRQ.NextScanline m).irqLatch = m.irqLatch ∧
    (Mapper4IRQ.NextScanline m).irqEnable = m.irqEnable ∧
    (Mapper4IRQ.NextScanline m).irqAssert =
      (if (if m.irqCounter = 0 ∨ m.irqReloadPending then m.irqLatch else m.irqCounter - 1) = 0
          ∧ m.irqEnable = true
        then true else m.irqAssert) ∧
    (Mapper4IRQ.IRQ m).1 = m.irqAssert ∧
    (Mapper4IRQ.IRQ m).2.irqAssert = false ∧
    (Mapper4IRQ.IRQ m).2.irqCounter = m.irqCounter ∧
    (Mapper4IRQ.IRQ m).2.irqEnable = m.irqEnable ∧
    (Mapper4IRQ.IRQ m).2.irqLatch = m.irqLatch ∧
    (Mapper4IRQ.IRQ m).2.irqReloadPending = m.irqReloadPending := by
  unfold Mapper4IRQ.NextScanline Mapper4IRQ.IRQ
  dsimp only
  by_cases h : m.irqCounter = 0 ∨ m.irqReloadPending = true
  · simp only [if_pos h]
    by_cases h2 : m.irqLatch = 0 ∧ m.irqEnable = true
    · simp only [if_pos h2]
      simp
    · simp only [if_neg h2]
      simp
  · have hp : m.irqReloadPending = false := by
      cases hx : m.irqReloadPending
      · rfl
      · exact absurd (Or.inr hx) h
    simp only [if_neg h]
    by_cases h2 : m.irqCounter - 1 = 0 ∧ m.irqEnable = true
    · simp only [if_pos h2]
      simp [hp]
    · simp only [if_neg h2]
      simp [hp]

/-- C1 counterexample: with the asserted flag still set from before,
counter 5 and IRQ enabled, NextScanline leaves the assertion set although
the updated counter (4) is non-zero — the asserted state does not hold
exactly when the counter is zero and IRQ is enabled. -/
theorem c1_counterexample :
    ¬ (((Mapper4IRQ.NextScanline m4Stale).irqAssert = true) ↔
       ((Mapper4IRQ.NextScanline m4Stale).irqCounter = 0 ∧
        (Mapper4IRQ.NextScanline m4Stale).irqEnable = true)) := by
  decide

/-! ### Theorems: joypad strobe routing (claim C8) -/

/-- C8 (corrected): the strobe is not shared.  A CPU bus write of b to
$4016 resets Joypad[0]'s read index and sets Joypad[0]'s strobe to bit 0
of b, leaving Joypad[1] entirely unchanged; a write to $4017 does the
symmetric thing to Joypad[1] alone. -/
theorem c8_joypad_strobe_amended (pads : Joypad × Joypad) (b : Nat) :
    (cpuWriteJoypads 0x4016 b pads).1
      = { pads.1 with i := 0, strobe := decide (b &&& 0x1 ≠ 0) } ∧
    (cpuWriteJoypads 0x4016 b pads).2 = pads.2 ∧
    (cpuWriteJoypads 0x4017 b pads).2
      = { pads.2 with i := 0, strobe := decide (b &&& 0x1 ≠ 0) } ∧
    (cpuWriteJoypads 0x4017 b pads).1 = pads.1 :=
  ⟨rfl, rfl, rfl, rfl⟩

/-- C8 counterexample: writing 0 to $4016 should, per the claim, set the
strobe of both joypads to bit 0 of 0, i.e. false; but Joypad[1]'s strobe
stays true. -/
theorem c8_counterexample :
    (cpuWriteJoypads 0x4016 0 (padPlain, padStrobed)).2.strobe = true ∧
    (0 : Nat) &&& 0x1 = 0 :=
  ⟨rfl, rfl⟩

/-! ### Theorems: MMC1 serial shift register (claim C3) -/

/-- Oring a value below 16 with a bit shifted to position 4 is addition. -/
theorem or16_bounded : ∀ x < 16, ∀ e < 2, (x ||| (e <<< 4) : Nat) = x + 16 * e := by
  decide

/-- One serial shift step, in arithmetic form: halve the register and add
the incoming bit at position 4. -/
theorem shiftIn_eq (sr b : Nat) (h : sr < 32) :
    (sr >>> 1) ||| ((b &&& 1) <<< 4) = sr / 2 + 16 * (b % 2) := by
  rw [Nat.and_one_is_mod, Nat.shiftRight_eq_div_pow]
  norm_num
  exact or16_bounded (sr / 2) (by omega) (b % 2) (by omega)

/-- A serial write (bit 7 clear) that is not the fifth one only shifts the
register and bumps the counter. -/
theorem Mapper1.write_serial_step (m : Mapper1) (address value : Nat)
    (ha : 0x8000 ≤ address) (hv : value &&& 0x80 = 0)
    (hc : m.shiftRegisterCount + 1 ≠ 5) :
    Mapper1.WriteCPU address value m =
      { m with shiftRegisterCount := m.shiftRegisterCount + 1,
               shiftRegister := (m.shiftRegister >>> 1) ||| ((value &&& 1) <<< 4) } := by
  unfold Mapper1.WriteCPU
  rw [if_neg (by omega), if_pos ha, if_neg (by simp [hv]), if_neg hc]

/-- The fifth serial write latches the shifted value into the register
selected by the address. -/
theorem Mapper1.write_serial_latch (m : Mapper1) (address value : Nat)
    (ha : 0x8000 ≤ address) (hv : value &&& 0x80 = 0)
    (hc : m.shiftRegisterCount + 1 = 5) :
    Mapper1.WriteCPU address value m =
      { Mapper1.latch (address &&& 0xE000)
          ((m.shiftRegister >>> 1) ||| ((value &&& 1) <<< 4)) m with
        shiftRegisterCount := 0,
        shiftRegister := (m.shiftRegister >>> 1) ||| ((value &&& 1) <<< 4) } := by
  unfold Mapper1.WriteCPU
  rw [if_neg (by omega), if_pos ha, if_neg (by simp [hv]), if_pos hc]

/-- The latch only reads the value being latched and the register file:
the serial bookkeeping fields of its argument are irrelevant once they
are overridden. -/
theorem Mapper1.latch_serial_irrelevant (sel sr : Nat) (m : Mapper1) (c s : Nat) :
    ({ Mapper1.latch sel sr { m with shiftRegisterCount := c, shiftRegister := s } with
        shiftRegisterCount := 0, shiftRegister := sr } : Mapper1) =
    { Mapper1.latch sel sr m with shiftRegisterCount := 0, shiftRegister := sr } := by
  unfold Mapper1.latch
  split_ifs <;> rfl

/-- C3 (corrected): an MMC1 CPU-side write to $8000-$FFFF with bit 7 set
resets the serial write counter to 0 and performs no register update, but
leaves the shift-register VALUE unchanged (it is not cleared; the five
shifts of the next sequence push the stale value out).  Starting from a
reset serial state, five consecutive such writes with bit 7 clear perform
exactly one register update: the first four only shift the incoming bits
into the register and bump the counter, and the fifth latches the 5-bit
value assembled LSB-first into the register selected by addr & $E000 and
resets the counter. -/
theorem c3_mmc1_serial_amended :
    (∀ (m : Mapper1) (address value : Nat), 0x8000 ≤ address →
      value &&& 0x80 ≠ 0 →
      Mapper1.WriteCPU address value m = { m with shiftRegisterCount := 0 }) ∧
    (∀ (m : Mapper1) (a0 a1 a2 a3 a4 b0 b1 b2 b3 b4 : Nat),
      m.shiftRegisterCount = 0 → m.shiftRegister < 32 →
      0x8000 ≤ a0 → 0x8000 ≤ a1 → 0x8000 ≤ a2 → 0x8000 ≤ a3 → 0x8000 ≤ a4 →
      b0 &&& 0x80 = 0 → b1 &&& 0x80 = 0 → b2 &&& 0x80 = 0 → b3 &&& 0x80 = 0 →
      b4 &&& 0x80 = 0 →
      Mapper1.WriteCPU a0 b0 m
        = { m with shiftRegisterCount := 1,
                   shiftRegister := m.shiftRegister / 2 + 16 * (b0 % 2) } ∧
      Mapper1.WriteCPU a1 b1 (Mapper1.WriteCPU a0 b0 m)
        = { m with shiftRegisterCount := 2,
                   shiftRegister := m.shiftRegister / 4 + 8 * (b0 % 2) + 16 * (b1 % 2) } ∧
      Mapper1.WriteCPU a2 b2 (Mapper1.WriteCPU a1 b1 (Mapper1.WriteCPU a0 b0 m))
        = { m with shiftRegisterCount := 3,
                   shiftRegister := m.shiftRegister / 8 + 4 * (b0 % 2) + 8 * (b1 % 2)
                     + 16 * (b2 % 2) } ∧
      Mapper1.WriteCPU a3 b3 (Mapper1.WriteCPU a2 b2 (Mapper1.WriteCPU a1 b1
          (Mapper1.WriteCPU a0 b0 m)))
        = { m with shiftRegisterCount := 4,
                   shiftRegister := m.shiftRegister / 16 + 2 * (b0 % 2) + 4 * (b1 % 2)
                     + 8 * (b2 % 2) + 16 * (b3 % 2) } ∧
      Mapper1.WriteCPU a4 b4 (Mapper1.WriteCPU a3 b3 (Mapper1.WriteCPU a2 b2
          (Mapper1.WriteCPU a1 b1 (Mapper1.WriteCPU a0 b0 m))))
        = { Mapper1.latch (a4 &&& 0xE000)
              (b0 % 2 + 2 * (b1 % 2) + 4 * (b2 % 2) + 8 * (b3 % 2) + 16 * (b4 % 2)) m with
            shiftRegisterCount := 0,
            shiftRegister := b0 % 2 + 2 * (b1 % 2) + 4 * (b2 % 2) + 8 * (b3 % 2)
              + 16 * (b4 % 2) }) := by
  constructor
  · intro m address value ha hv
    unfold Mapper1.WriteCPU
    rw [if_neg (by omega), if_pos ha, if_pos hv]
  · intro m a0 a1 a2 a3 a4 b0 b1 b2 b3 b4 hc hs ha0 ha1 ha2 ha3 ha4 hb0 hb1 hb2 hb3 hb4
    have hw1 : Mapper1.WriteCPU a0 b0 m
        = { m with shiftRegisterCount := 1,
                   shiftRegister := m.shiftRegister / 2 + 16 * (b0 % 2) } := by
      rw [Mapper1.write_serial_step m a0 b0 ha0 hb0 (by omega),
        shiftIn_eq m.shiftRegister b0 hs, hc]
    have hs1 : m.shiftRegister / 2 + 16 * (b0 % 2) < 32 := by omega
    have hw2 : Mapper1.WriteCPU a1 b1 (Mapper1.WriteCPU a0 b0 m)
        = { m with shiftRegisterCount := 2,
                   shiftRegister := m.shiftRegister / 4 + 8 * (b0 % 2) + 16 * (b1 % 2) } := by
      rw [hw1, Mapper1.write_serial_step _ a1 b1 ha1 hb1 (by simp)]
      dsimp only
      rw [shiftIn_eq _ b1 hs1]
      congr 1
      omega
    have hs2 : m.shiftRegister / 4 + 8 * (b0 % 2) + 16 * (b1 % 2) < 32 := by omega
    have hw3 : Mapper1.WriteCPU a2 b2 (Mapper1.WriteCPU a1 b1 (Mapper1.WriteCPU a0 b0 m))
        = { m with shiftRegisterCount := 3,
                   shiftRegister := m.shiftRegister / 8 + 4 * (b0 % 2) + 8 * (b1 % 2)
                     + 16 * (b2 % 2) } := by
      rw [hw2, Mapper1.write_serial_step _ a2 b2 ha2 hb2 (by simp)]
      dsimp only
      rw [shiftIn_eq _ b2 hs2]
      congr 1
      omega
    have hs3 : m.shiftRegister / 8 + 4 * (b0 % 2) + 8 * (b1 % 2) + 16 * (b2 % 2) < 32 := by
      omega
    have hw4 : Mapper1.WriteCPU a3 b3 (Mapper1.WriteCPU a2 b2 (Mapper1.WriteCPU a1 b1
          (Mapper1.WriteCPU a0 b0 m)))
        = { m with shiftRegisterCount := 4,
                   shiftRegister := m.shiftRegister / 16 + 2 * (b0 % 2) + 4 * (b1 % 2)
                     + 8 * (b2 % 2) + 16 * (b3 % 2) } := by
      rw [hw3, Mapper1.write_serial_step _ a3 b3 ha3 hb3 (by simp)]
      dsimp only
      rw [shiftIn_eq _ b3 hs3]
      congr 1
      omega
    have hs4 : m.shiftRegister / 16 + 2 * (b0 % 2) + 4 * (b1 % 2) + 8 * (b2 % 2)
        + 16 * (b3 % 2) < 32 := by
      omega
    refine ⟨hw1, hw2, hw3, hw4, ?_⟩
    rw [hw4, Mapper1.write_serial_latch _ a4 b4 ha4 hb4 (by simp)]
    dsimp only
    rw [shiftIn_eq _ b4 hs4]
    have key : ∀ x : Nat, x ≤ 1 →
        (x + 2 * (b0 % 2) + 4 * (b1 % 2) + 8 * (b2 % 2) + 16 * (b3 % 2)) / 2 + 16 * (b4 % 2)
          = b0 % 2 + 2 * (b1 % 2) + 4 * (b2 % 2) + 8 * (b3 % 2) + 16 * (b4 % 2) := by
      intro x hx
      omega
    have hx : m.shiftRegister / 16 ≤ 1 := by omega
    rw [key (m.shiftRegister / 16) hx]
    exact Mapper1.latch_serial_irrelevant (a4 &&& 0xE000) _ m 4 _

/-- C3 counterexample: a bit-7 write to $8000 resets the write counter
but leaves the shift-register value at $1F, not 0, contradicting the
claimed reset of the shift state to value 0. -/
theorem c3_counterexample :
    (Mapper1.WriteCPU 0x8000 0x80 m1Cex).shiftRegisterCount = 0 ∧
    (Mapper1.WriteCPU 0x8000 0x80 m1Cex).shiftRegister = 0x1F ∧
    m1Cex.shiftRegister = 0x1F :=
  ⟨rfl, rfl, rfl⟩

/-- Concrete instance of c3_mmc1_serial_amended: a bit-7 reset write, and
a five-write sequence 1,0,1,0,1 latching 21 into the PRG bank register
(address select $E000). -/
theorem c3_witness :
    Mapper1.WriteCPU 0x9000 0xFF m1Idle = { m1Idle with shiftRegisterCount := 0 } ∧
    Mapper1.WriteCPU 0xE001 1 (Mapper1.WriteCPU 0x8000 0 (Mapper1.WriteCPU 0x8000 1
        (Mapper1.WriteCPU 0x8000 0 (Mapper1.WriteCPU 0x8000 1 m1Idle))))
      = { Mapper1.latch (0xE001 &&& 0xE000)
            (1 % 2 + 2 * (0 % 2) + 4 * (1 % 2) + 8 * (0 % 2) + 16 * (1 % 2)) m1Idle with
          shiftRegisterCount := 0,
          shiftRegister := 1 % 2 + 2 * (0 % 2) + 4 * (1 % 2) + 8 * (0 % 2)
            + 16 * (1 % 2) } :=
  ⟨c3_mmc1_serial_amended.1 m1Idle 0x9000 0xFF (by decide) (by decide),
   (c3_mmc1_serial_amended.2 m1Idle 0x8000 0x8000 0x8000 0x8000 0xE001 1 0 1 0 1
      rfl (by decide) (by decide) (by decide) (by decide) (by decide) (by decide)
      (by decide) (by decide) (by decide) (by decide) (by decide)).2.2.2.2⟩
